import Mathlib

/-!
Verification development for the Auê Natural pricing repository.

This file gives a shallow embedding, in Lean 4, of the core of the
entity-resolution engine and its supporting components:

* `normalize_text` and the lexical scorers of
  `src/enhanced_matching_engine.py` (shared verbatim by
  `scripts/post_process_unmatched.py`),
* the pair enumeration / scoring of `compute_matches_enhanced`
  (primary pass) and `find_matches_in_unmatched` (recovery pass),
* the consolidation step `merge_results` of
  `scripts/automated_matching_pipeline.py`,
* the deduplication state manager `src/deduplication_manager.py`.

Python floats are modelled as rationals (`ℚ`), `None`/`NaN` cells as
`Option`/dedicated constructors, Python sets as `Finset String`, and the
external embedding model as an explicit function parameter.  Pure
metadata passthrough columns (prices, currencies, collection dates) are
omitted from the record types; no claim concerns them.
-/

set_option maxRecDepth 8192

namespace AuePricing

/-- Whitespace characters: the ASCII part of Python's regex class `\s`,
which is also what `str.strip()` removes.  (Non-ASCII whitespace is not
exercised by any claim.) -/
def isSpaceChar (c : Char) : Bool :=
  c == ' ' || c == '\t' || c == '\n' || c == '\r' || c == '\x0b' || c == '\x0c'

/-- Characters kept by the substitution `re.sub(r"[^a-z0-9\s]", " ", ...)`
apart from whitespace: lowercase ASCII letters and digits. -/
def keepChar (c : Char) : Bool :=
  ('a' ≤ c && c ≤ 'z') || ('0' ≤ c && c ≤ '9')

/-- One step of `re.sub(r"[^a-z0-9\s]", " ", ...)`: any character that is
neither in `[a-z0-9]` nor whitespace becomes a space. -/
def substChar (c : Char) : Char :=
  if keepChar c || isSpaceChar c then c else ' '

/-- Strip leading and trailing whitespace, as Python `str.strip()`. -/
def stripChars (l : List Char) : List Char :=
  ((l.dropWhile isSpaceChar).reverse.dropWhile isSpaceChar).reverse

/-- Collapse every maximal run of whitespace into a single `' '`,
as `re.sub(r"\s+", " ", ...)`.  The boolean records whether we are
inside a run that has already emitted its `' '`. -/
def collapseRuns : Bool → List Char → List Char
  | _, [] => []
  | inRun, c :: rest =>
    if isSpaceChar c then
      if inRun then collapseRuns true rest
      else ' ' :: collapseRuns true rest
    else c :: collapseRuns false rest

/-- Python `str.lower()` on one character, restricted to ASCII (it
agrees with Python on ASCII; non-ASCII letters are replaced by a space
by the following substitution stage either way). -/
def pyLowerChar (c : Char) : Char :=
  if 'A' ≤ c ∧ c ≤ 'Z' then Char.ofNat (c.toNat + 32) else c

/-- Core of `normalize_text` on an actual string:
`text.lower().strip()`, then replace `[^a-z0-9\s]` by spaces, then
collapse whitespace runs. -/
def normStr (s : String) : String :=
  ⟨collapseRuns false ((stripChars (s.data.map pyLowerChar)).map substChar)⟩

/-- The argument of `normalize_text` as it arrives from a pandas column:
a string, `None`, or the float `NaN`. -/
inductive PyText where
  | none : PyText
  | nan : PyText
  | str (s : String) : PyText
deriving DecidableEq

/-- Embedding of `normalize_text` (`src/enhanced_matching_engine.py`,
lines 232-239; `scripts/post_process_unmatched.py` has a verbatim copy):
`None` and `NaN` map to the empty string, a string goes through
lowercase / strip / punctuation-substitution / whitespace-collapse. -/
def normalize_text : PyText → String
  | .none => ""
  | .nan => ""
  | .str s => normStr s

/-- Python `str.split()`: split on whitespace runs, dropping empty
tokens.  The accumulator holds the current token reversed. -/
def wordsAux : List Char → List Char → List (List Char)
  | [], acc => if acc.isEmpty then [] else [acc.reverse]
  | c :: rest, acc =>
    if isSpaceChar c then
      if acc.isEmpty then wordsAux rest [] else acc.reverse :: wordsAux rest []
    else wordsAux rest (c :: acc)

/-- Tokens of a string, as Python `s.split()`. -/
def tokensOf (s : String) : List String :=
  (wordsAux s.data []).map (fun l => ⟨l⟩)

/-- Embedding of `token_overlap` — Jaccard token overlap in `[0, 100]`,
`0` when either token set is empty. -/
def token_overlap (a b : String) : ℚ :=
  let ta := (tokensOf a).dedup
  let tb := (tokensOf b).dedup
  if ta.isEmpty || tb.isEmpty then 0
  else
    let inter := (ta.filter (· ∈ tb)).length
    let union := ((ta ++ tb).dedup).length
    ((inter : ℚ) / (union : ℚ)) * 100

/-- InDel (longest-common-subsequence) edit distance: insertions and
deletions only, the distance underlying `rapidfuzz.fuzz.ratio`. -/
def indelDist : List Char → List Char → Nat
  | [], ys => ys.length
  | xs, [] => xs.length
  | x :: xs, y :: ys =>
    if x = y then indelDist xs ys
    else 1 + min (indelDist xs (y :: ys)) (indelDist (x :: xs) ys)
termination_by xs ys => xs.length + ys.length
decreasing_by all_goals simp_arith

/-- Normalized InDel similarity in `[0,100]` (`rapidfuzz.fuzz.ratio`):
`100 * (1 - dist / (len1 + len2))`, with `100` for two empty strings. -/
def indelSim (a b : List Char) : ℚ :=
  let lensum := a.length + b.length
  if lensum = 0 then 100
  else 100 * ((lensum : ℚ) - (indelDist a b : ℚ)) / (lensum : ℚ)

/-- Insertion into a lexicographically sorted list of strings. -/
def insertSorted (x : String) : List String → List String
  | [] => [x]
  | y :: ys => if x ≤ y then x :: y :: ys else y :: insertSorted x ys

/-- Sort a list of strings lexicographically (Python `sorted`). -/
def sortStrings (l : List String) : List String :=
  l.foldr insertSorted []

/-- Python `" ".join(l)`. -/
def joinSpace (l : List String) : String :=
  String.intercalate " " l

/-- Embedding of `rapidfuzz.fuzz.token_set_ratio` (pure-Python
reference implementation): compare the sorted unique-token strings of
the two sides, with the shortcut that a non-empty token intersection
with one side's difference empty scores `100`. -/
def token_set_score (s1 s2 : String) : ℚ :=
  let ta := (tokensOf s1).dedup
  let tb := (tokensOf s2).dedup
  if ta.isEmpty || tb.isEmpty then 0
  else
    let inter := ta.filter (· ∈ tb)
    let diffAB := ta.filter (· ∉ tb)
    let diffBA := tb.filter (· ∉ ta)
    if ¬inter.isEmpty ∧ (diffAB.isEmpty ∨ diffBA.isEmpty) then 100
    else
      let abJ := joinSpace (sortStrings diffAB)
      let baJ := joinSpace (sortStrings diffBA)
      let sectLen : ℚ := ((joinSpace inter).length : ℚ)
      let sectBool : ℚ := if (joinSpace inter).length = 0 then 0 else 1
      let sectAbLen := sectLen + sectBool + (abJ.length : ℚ)
      let sectBaLen := sectLen + sectBool + (baJ.length : ℚ)
      let result := indelSim abJ.data baJ.data
      let sectAbDist := sectBool + (abJ.length : ℚ)
      let sectAbRatioV :=
        if sectLen + sectAbLen = 0 then 100
        else 100 * (sectLen + sectAbLen - sectAbDist) / (sectLen + sectAbLen)
      let sectBaDist := sectBool + (baJ.length : ℚ)
      let sectBaRatioV :=
        if sectLen + sectBaLen = 0 then 100
        else 100 * (sectLen + sectBaLen - sectBaDist) / (sectLen + sectBaLen)
      max result (max sectAbRatioV sectBaRatioV)

/-- The shared lexical score of both passes:
`0.6 * token_set_ratio + 0.4 * jaccard_overlap`. -/
def lexicalScore (a b : String) : ℚ :=
  (6 / 10) * token_set_score a b + (4 / 10) * token_overlap a b

/-- Python `round` to an integer: round half to even (banker's rounding). -/
def roundHalfEven (x : ℚ) : ℤ :=
  let f := Int.floor x
  let frac := x - (f : ℚ)
  if frac < 1 / 2 then f
  else if 1 / 2 < frac then f + 1
  else if f % 2 = 0 then f else f + 1

/-- Python `round(x, 1)` modelled on exact rationals. -/
def pyRound1 (x : ℚ) : ℚ :=
  ((roundHalfEven (10 * x) : ℤ) : ℚ) / 10

/-- Python `round(x, 2)` modelled on exact rationals. -/
def pyRound2 (x : ℚ) : ℚ :=
  ((roundHalfEven (100 * x) : ℤ) : ℚ) / 100

/-- A `size_value` cell as it reaches `size_similarity_and_effect`:
`None`, a numeric value, or a string on which `float()` raises
`ValueError`.  (Strings that do parse behave as their numeric value.) -/
inductive SizeVal where
  | missing : SizeVal
  | num (q : ℚ) : SizeVal
  | badstr (s : String) : SizeVal
deriving DecidableEq

/-- Python `str.lower()` restricted to ASCII (all unit strings in the
data are ASCII). -/
def lowerString (s : String) : String :=
  ⟨s.data.map pyLowerChar⟩

/-- The size tolerance constant `SIZE_TOLERANCE = 0.20` of
`src/enhanced_matching_engine.py`. -/
def SIZE_TOLERANCE : ℚ := 20 / 100

/-- Embedding of `size_similarity_and_effect`
(`src/enhanced_matching_engine.py`, lines 281-318).  Returns the pair
`(size_sim, size_effect)`.  Guard order follows the code: the `None`
checks, then the `float()` conversion (`ValueError` → neutral), then the
unit comparison, then the `bigger == 0` guard, then the tolerance
bands. -/
def size_similarity_and_effect :
    SizeVal → Option String → SizeVal → Option String → ℚ × ℚ
  | .missing, _, _, _ => (50, 0)
  | _, _, .missing, _ => (50, 0)
  | _, Option.none, _, _ => (50, 0)
  | _, _, _, Option.none => (50, 0)
  | .badstr _, _, _, _ => (50, 0)
  | _, _, .badstr _, _ => (50, 0)
  | .num q1, some u1, .num q2, some u2 =>
    if lowerString u1 ≠ lowerString u2 then (0, -10)
    else
      let bigger := max q1 q2
      let smaller := min q1 q2
      if bigger = 0 then (50, 0)
      else
        let diffFrac := (bigger - smaller) / bigger
        if diffFrac ≤ 5 / 100 then (100, 20)
        else if diffFrac ≤ SIZE_TOLERANCE then (50, 10)
        else (0, -10)

/-- The `GENERIC_TITLES` set of `src/enhanced_matching_engine.py`. -/
def GENERIC_TITLES : List String :=
  ["shampoo bar", "shampoo bars", "conditioner bar", "conditioner bars",
   "hair shampoo bar", "shampoo soap bars", "body butter", "body butters",
   "face serum", "serum", "brightening serum", "whipped body butter",
   "body butter moisturiser"]

/-- Embedding of `is_generic_title`: empty names are not generic, a
non-empty cleaned name is generic exactly when it is one of the known
generic titles. -/
def is_generic_title (cleanName : String) : Bool :=
  if cleanName = "" then false else GENERIC_TITLES.contains cleanName

/-- Prefix test on character lists. -/
def startsWithChars : List Char → List Char → Bool
  | [], _ => true
  | _ :: _, [] => false
  | p :: ps, c :: cs => p == c && startsWithChars ps cs

/-- Substring test (`needle in hay` for Python strings), first argument
is the needle. -/
def containsSub (pat : List Char) : List Char → Bool
  | [] => pat.isEmpty
  | c :: rest => startsWithChars pat (c :: rest) || containsSub pat rest

/-- Python `kw in clean_name` on strings. -/
def strContains (hay pat : String) : Bool :=
  containsSub pat.data hay.data

/-- The `SUBCATEGORY_KEYWORDS` table of `src/enhanced_matching_engine.py`,
in insertion (iteration) order. -/
def SUBCATEGORY_KEYWORDS : List (String × List String) :=
  [("vitc", ["vitamin c", "vit c", "ascorbic"]),
   ("niacinamide", ["niacinamide", "vitamin b3", "vit b3"]),
   ("hyaluronic", ["hyaluronic", "ha ", " hyal ", "hyaluronic acid"]),
   ("retinol", ["retinol", "retinoid"]),
   ("anti_dandruff", ["anti dandruff", "anti-dandruff", "dandruff"]),
   ("curl", ["curly", "curl", "coily", "wavy"]),
   ("shea", ["shea butter", "shea"]),
   ("vanilla", ["vanilla"]),
   ("mango", ["mango"])]

/-- Embedding of `detect_subcategory`: the first table entry one of
whose keywords occurs in the cleaned name, `None` for the empty name. -/
def detect_subcategory (cleanName : String) : Option String :=
  if cleanName = "" then none
  else
    SUBCATEGORY_KEYWORDS.findSome? fun p =>
      if p.2.any (fun kw => strContains cleanName kw) then some p.1 else none

/-- The `RETAILER_STANDARDIZATION` map (keys are matched against
normalized text; the `.com` keys can never match and are kept only for
faithfulness). -/
def RETAILER_STANDARDIZATION : List (String × String) :=
  [("boots uk", "boots"), ("boots.com", "boots"), ("boots", "boots"),
   ("amazon uk", "amazon"), ("amazon.co.uk", "amazon"), ("amazon", "amazon")]

/-- Embedding of `standardize_retailer_name`: normalize, then map
through the standardization table, defaulting to the normalized name. -/
def standardize_retailer_name (name : PyText) : String :=
  let norm := normalize_text name
  match RETAILER_STANDARDIZATION.lookup norm with
  | some v => v
  | Option.none => norm

/-- Dot product of two embedding vectors (trailing coordinates of the
longer vector are ignored, as in a componentwise `numpy` product of
equal-length model outputs). -/
def dotL : List ℝ → List ℝ → ℝ
  | [], _ => 0
  | _, [] => 0
  | x :: xs, y :: ys => x * y + dotL xs ys

/-- Cosine similarity as computed by `sklearn.metrics.pairwise
.cosine_similarity`: dot product over the product of Euclidean norms
(a zero vector yields `0`, matching sklearn's guarded normalization
and Lean's division by zero). -/
noncomputable def cosineSim (v w : List ℝ) : ℝ :=
  dotL v w / (Real.sqrt (dotL v v) * Real.sqrt (dotL w w))

/-- Embedding of `EmbeddingManager.compute_semantic_similarity`
(`src/enhanced_matching_engine.py`, lines 207-216): the cosine
similarity of the two texts' embedding vectors multiplied by `100`.
The embedding model is an explicit parameter. -/
noncomputable def compute_semantic_similarity
    (embed : String → List ℝ) (t1 t2 : String) : ℝ :=
  cosineSim (embed t1) (embed t2) * 100

/-- Modelled from the spec (§4.3): the semantic score as the spec
describes it, the cosine similarity "rescaled from [-1,1] to [0,100]",
i.e. `cos ↦ (cos + 1) / 2 * 100`.  Used only to compare the spec's
description against `compute_semantic_similarity`. -/
noncomputable def semantic_similarity_spec_rescaled
    (embed : String → List ℝ) (t1 t2 : String) : ℝ :=
  (cosineSim (embed t1) (embed t2) + 1) / 2 * 100

/-- Threshold constants of the two passes:
`MIN_SIMILARITY = 65` in `src/enhanced_matching_engine.py` and
`MIN_SIMILARITY = 60` in `scripts/post_process_unmatched.py`. -/
def MIN_SIMILARITY : ℚ := 65

/-- Recovery-pass acceptance threshold. -/
def POST_MIN_SIMILARITY : ℚ := 60

/-- Hybrid weights `LEXICAL_WEIGHT = 0.6`, `SEMANTIC_WEIGHT = 0.4`. -/
def LEXICAL_WEIGHT : ℚ := 6 / 10

/-- Semantic weight of the hybrid score. -/
def SEMANTIC_WEIGHT : ℚ := 4 / 10

/-- A prepared row as consumed by `compute_matches_enhanced`: the raw
columns plus the `*_clean` columns added by `prepare_matching_frame`.
Metadata passthrough columns (price, currency, dates) are omitted.
Construct with `prepareRow` to get the derived columns right. -/
structure PRow where
  product_id : String
  product_name : String
  brand_name : PyText
  category_name : PyText
  retailer_name : PyText
  size_value : SizeVal
  size_unit : Option String
  product_clean : String
  brand_clean : String
  category_clean : String
  retailer_clean : String
deriving DecidableEq

/-- The normalization part of `prepare_matching_frame`: derive the
`*_clean` columns from the raw ones.  (Multipack size parsing only
feeds the completeness filter, not the scoring, and is not modelled.) -/
def prepareRow (pid pname : String) (brand category retailer : PyText)
    (sv : SizeVal) (su : Option String) : PRow :=
  { product_id := pid, product_name := pname, brand_name := brand,
    category_name := category, retailer_name := retailer,
    size_value := sv, size_unit := su,
    product_clean := normStr pname,
    brand_clean := normalize_text brand,
    category_clean := normalize_text category,
    retailer_clean := standardize_retailer_name retailer }

/-- An emitted primary-pass match pair (scoring columns only). -/
structure MatchPair where
  product_1_id : String
  product_2_id : String
  product_1_name : String
  product_2_name : String
  brand_1 : PyText
  brand_2 : PyText
  category : PyText
  retailer_1 : PyText
  retailer_2 : PyText
  similarity : ℚ
  hybrid_name_similarity : ℚ
  lexical_similarity : ℚ
  semantic_similarity : ℚ
  brand_similarity : ℚ
  size_similarity : ℚ
deriving DecidableEq

/-- The body of the inner loop of `compute_matches_enhanced`
(`src/enhanced_matching_engine.py`, lines 479-571) for one ordered row
pair `(row_i, row_j)`, `i < j` in the category group: the self-duplicate
skip, the generic-title guard, hybrid scoring, brand / size /
subcategory adjustments, clamping and thresholding.  The semantic
scorer `sem` (embedding manager) is a parameter.  Returns the emitted
pair, or `none` when the pair is skipped or below threshold. -/
def emitPairEnhanced (sem : String → String → ℚ) (ri rj : PRow) :
    Option MatchPair :=
  if ri.product_id = rj.product_id ∧ ri.retailer_clean = rj.retailer_clean then none
  else if is_generic_title ri.product_clean ≠ is_generic_title rj.product_clean then none
  else
    let fuzzScore := token_set_score ri.product_clean rj.product_clean
    let overlapScore := token_overlap ri.product_clean rj.product_clean
    let lexical := (6 / 10) * fuzzScore + (4 / 10) * overlapScore
    let semScore := sem ri.product_clean rj.product_clean
    let hybrid := LEXICAL_WEIGHT * lexical + SEMANTIC_WEIGHT * semScore
    let b1 := ri.brand_clean
    let b2 := rj.brand_clean
    let brandSim : ℚ := if b1 ≠ "" ∧ b2 ≠ "" then (if b1 = b2 then 100 else 0) else 50
    let brandAdj : ℚ := if b1 ≠ "" ∧ b2 ≠ "" then (if b1 = b2 then 20 else -25) else 0
    let sz := size_similarity_and_effect ri.size_value ri.size_unit rj.size_value rj.size_unit
    let subAdj : ℚ :=
      match detect_subcategory ri.product_clean, detect_subcategory rj.product_clean with
      | some a, some b => if a = b then 10 else -15
      | _, _ => 0
    let score := max 0 (min 100 (hybrid + brandAdj + sz.2 + subAdj))
    if score < MIN_SIMILARITY then none
    else some
      { product_1_id := ri.product_id, product_2_id := rj.product_id,
        product_1_name := ri.product_name, product_2_name := rj.product_name,
        brand_1 := ri.brand_name, brand_2 := rj.brand_name,
        category := ri.category_name,
        retailer_1 := ri.retailer_name, retailer_2 := rj.retailer_name,
        similarity := pyRound1 score,
        hybrid_name_similarity := pyRound2 hybrid,
        lexical_similarity := pyRound2 lexical,
        semantic_similarity := pyRound2 semScore,
        brand_similarity := pyRound2 brandSim,
        size_similarity := pyRound2 sz.1 }

/-- All ordered pairs `(l[i], l[j])` with `i < j`, in the order the two
nested loops visit them. -/
def pairsOf {α : Type} : List α → List (α × α)
  | [] => []
  | x :: xs => (xs.map (fun y => (x, y))) ++ pairsOf xs

/-- Sorted distinct category keys, as `pandas.groupby` produces them. -/
def groupKeysEnhanced (rows : List PRow) : List String :=
  sortStrings ((rows.map (·.category_clean)).dedup)

/-- Embedding of `compute_matches_enhanced`: group rows by normalized
category, visit each within-group unordered pair once, emit the
surviving scored pairs. -/
def compute_matches_enhanced (sem : String → String → ℚ)
    (rows : List PRow) : List MatchPair :=
  (groupKeysEnhanced rows).flatMap fun k =>
    (pairsOf (rows.filter (fun r => r.category_clean = k))).filterMap
      fun p => emitPairEnhanced sem p.1 p.2

/-- Embedding of `compute_unmatched`: the rows whose `product_id`
occurs on neither side of any emitted pair. -/
def compute_unmatched (rows : List PRow) (ms : List MatchPair) : List PRow :=
  rows.filter fun r =>
    !(ms.any fun m => m.product_1_id == r.product_id || m.product_2_id == r.product_id)

/-- A row of the unmatched-products CSV as read back by
`find_matches_in_unmatched`.  `brand_clean` is an `Option` because
pandas reads an empty cell back as `NaN`; `category_name` is an
`Option` because `groupby` silently drops `NaN` keys. -/
structure URow where
  product_id : String
  product_name : String
  brand_name : PyText
  category_name : Option String
  product_clean : String
  brand_clean : Option String
  retailer_clean : String
  retailer_name : PyText
  size_value : SizeVal
  size_unit : Option String
deriving DecidableEq

/-- Round-trip of an unmatched prepared row through the CSV handoff to
the recovery pass (empty `brand_clean` becomes `NaN`, a missing raw
category becomes a `NaN` group key). -/
def toURow (r : PRow) : URow :=
  { product_id := r.product_id, product_name := r.product_name,
    brand_name := r.brand_name,
    category_name := match r.category_name with
      | .str s => some s
      | _ => Option.none,
    product_clean := r.product_clean,
    brand_clean := if r.brand_clean = "" then Option.none else some r.brand_clean,
    retailer_clean := r.retailer_clean, retailer_name := r.retailer_name,
    size_value := r.size_value, size_unit := r.size_unit }

/-- An emitted recovery-pass match pair (scoring columns only). -/
structure PostMatchPair where
  product_1_id : String
  product_2_id : String
  product_1_name : String
  product_2_name : String
  brand_1 : PyText
  brand_2 : PyText
  category : Option String
  retailer_1 : PyText
  retailer_2 : PyText
  similarity : ℚ
  lexical_similarity : ℚ
  brand_similarity : ℚ
  size_similarity : ℚ
  match_source : String
deriving DecidableEq

/-- Truthiness gate `pd.notna(b) and b` on a brand cell. -/
def brandTruthy : Option String → Bool
  | some s => s ≠ ""
  | Option.none => false

/-- The size-matching block of `find_matches_in_unmatched`
(`scripts/post_process_unmatched.py`, lines 96-116), returning
`(size_similarity, score adjustment)`.  The bare `except: pass` keeps
the pre-set neutral `50` both when `float()` fails and when the
`max(s1, s2)` denominator is zero. -/
def postSizeBlock (ri rj : URow) : ℚ × ℚ :=
  match ri.size_value, rj.size_value, ri.size_unit, rj.size_unit with
  | .num s1, .num s2, some u1, some u2 =>
    if lowerString u1 = lowerString u2 then
      if s1 = s2 then (100, 15)
      else if max s1 s2 = 0 then (50, 0)
      else if |s1 - s2| / max s1 s2 ≤ 1 / 10 then (80, 10)
      else (30, 0)
    else (10, -5)
  | .badstr _, _, some _, some _ => (50, 0)
  | .num _, .badstr _, some _, some _ => (50, 0)
  | _, _, _, _ => (50, 0)

/-- The body of the inner loop of `find_matches_in_unmatched`
(`scripts/post_process_unmatched.py`, lines 59-159) for one ordered row
pair: lexical-only base score, softer brand bonus/penalty, its own size
block, then the three special-case overrides (identical `product_id`
forces `100`; lexical ≥ 95 forces at least `95`; equal non-null brand
with lexical ≥ 70 adds `10`), clamping, and the `≥ 60` threshold. -/
def emitPairPost (ri rj : URow) : Option PostMatchPair :=
  if ri.product_id = rj.product_id ∧ ri.retailer_clean = rj.retailer_clean then none
  else
    let fuzzScore := token_set_score ri.product_clean rj.product_clean
    let overlapScore := token_overlap ri.product_clean rj.product_clean
    let lexical := (6 / 10) * fuzzScore + (4 / 10) * overlapScore
    let b1 := ri.brand_clean
    let b2 := rj.brand_clean
    let brandSim : ℚ :=
      if brandTruthy b1 && brandTruthy b2 then (if b1 = b2 then 100 else 0) else 50
    let brandAdj : ℚ :=
      if brandTruthy b1 && brandTruthy b2 then (if b1 = b2 then 25 else -15) else 0
    let sz := postSizeBlock ri rj
    let base := lexical + brandAdj + sz.2
    let score0 :=
      if ri.product_id = rj.product_id then 100
      else if lexical ≥ 95 then max base 95
      else if b1.isSome ∧ b2.isSome ∧ b1 = b2 ∧ lexical ≥ 70 then base + 10
      else base
    let score := max 0 (min 100 score0)
    if POST_MIN_SIMILARITY ≤ score then some
      { product_1_id := ri.product_id, product_2_id := rj.product_id,
        product_1_name := ri.product_name, product_2_name := rj.product_name,
        brand_1 := ri.brand_name, brand_2 := rj.brand_name,
        category := ri.category_name,
        retailer_1 := ri.retailer_name, retailer_2 := rj.retailer_name,
        similarity := pyRound1 score,
        lexical_similarity := pyRound2 lexical,
        brand_similarity := pyRound2 brandSim,
        size_similarity := pyRound2 sz.1,
        match_source := "post_processing" }
    else none

/-- Sorted distinct raw-category keys of the recovery pass (`groupby`
on `category_name`, dropping `NaN`). -/
def groupKeysPost (rows : List URow) : List String :=
  sortStrings ((rows.filterMap (·.category_name)).dedup)

/-- Embedding of `find_matches_in_unmatched`: group the unmatched rows
by raw category and emit every surviving scored pair. -/
def find_matches_in_unmatched (rows : List URow) : List PostMatchPair :=
  (groupKeysPost rows).flatMap fun k =>
    (pairsOf (rows.filter (fun r => r.category_name = some k))).filterMap
      fun p => emitPairPost p.1 p.2

/-- A row of the final consolidated match file produced by
`AutomatedMatchingPipeline.merge_results` (the columns the claims
inspect).  `confidence_tier` is an `Option` because the plain enhanced
engine emits no tier column of its own. -/
structure ConsRow where
  product_1_id : String
  product_2_id : String
  retailer_1 : PyText
  retailer_2 : PyText
  similarity : ℚ
  confidence_tier : Option String
  match_source : String
deriving DecidableEq

/-- A primary-pass pair as it appears in the consolidated output. -/
def toConsMain (m : MatchPair) : ConsRow :=
  { product_1_id := m.product_1_id, product_2_id := m.product_2_id,
    retailer_1 := m.retailer_1, retailer_2 := m.retailer_2,
    similarity := m.similarity, confidence_tier := Option.none,
    match_source := "main_engine" }

/-- A recovery-pass pair as it appears in the consolidated output:
`merge_results` assigns `confidence_tier = 'LOW'` to every
post-processing pair (`scripts/automated_matching_pipeline.py`,
line 223). -/
def toConsPost (m : PostMatchPair) : ConsRow :=
  { product_1_id := m.product_1_id, product_2_id := m.product_2_id,
    retailer_1 := m.retailer_1, retailer_2 := m.retailer_2,
    similarity := m.similarity, confidence_tier := some "LOW",
    match_source := "post_processing" }

/-- The pair-consolidation step of `merge_results`
(`scripts/automated_matching_pipeline.py`, lines 236-238):
the concatenation of the primary pairs and the recovery pairs. -/
def merge_results_combined (main : List MatchPair)
    (post : List PostMatchPair) : List ConsRow :=
  main.map toConsMain ++ post.map toConsPost

/-- The `dataset_overview` block of the pipeline summary. -/
structure PipelineStats where
  total_products : ℚ
  matched_products : ℚ
  unmatched_products : ℕ
  coverage_percentage : ℚ
deriving DecidableEq

/-- The statistics step of `merge_results`
(`scripts/automated_matching_pipeline.py`, lines 241-283):
remove newly matched ids from the unmatched list, take the hardcoded
dataset size `888`, and report `coverage_percentage` as
`round((matched / total) * 100, 1)`. -/
def merge_results_stats (post : List PostMatchPair)
    (unmatched : List URow) : PipelineStats :=
  let newlyMatched := post.flatMap fun m => [m.product_1_id, m.product_2_id]
  let updatedUnmatched := unmatched.filter fun u => !(newlyMatched.contains u.product_id)
  let total : ℚ := 888
  let matched : ℚ := total - (updatedUnmatched.length : ℚ)
  { total_products := total,
    matched_products := matched,
    unmatched_products := updatedUnmatched.length,
    coverage_percentage := pyRound1 (matched / total * 100) }

/-- The full two-pass pipeline on one dataset: primary pass, unmatched
complement, recovery pass over the unmatched rows, consolidation. -/
def pipeline_final_matches (sem : String → String → ℚ)
    (rows : List PRow) : List ConsRow :=
  let mainM := compute_matches_enhanced sem rows
  let post := find_matches_in_unmatched ((compute_unmatched rows mainM).map toURow)
  merge_results_combined mainM post

/-- Two consolidated rows covering the same unordered `product_id`
combination. -/
def sameUnorderedIds (a b : ConsRow) : Bool :=
  (a.product_1_id == b.product_1_id && a.product_2_id == b.product_2_id) ||
  (a.product_1_id == b.product_2_id && a.product_2_id == b.product_1_id)

/-- Whether some unordered `product_id` combination occurs in more than
one row of a consolidated match list. -/
def hasDupUnorderedPair : List ConsRow → Bool
  | [] => false
  | m :: rest => rest.any (sameUnorderedIds m) || hasDupUnorderedPair rest

/-- Python `str.strip()` on a string. -/
def trimString (s : String) : String :=
  ⟨stripChars s.data⟩

/-- Greedy match of the tail of the tracking-parameter pattern
`utm_[^=]+=[^&]+` at the head of `l`; on success returns the characters
after the match. -/
def matchUtm (l : List Char) : Option (List Char) :=
  if l.take 4 = "utm_".data then
    if ((l.drop 4).takeWhile (fun c => c != '=')).isEmpty then none
    else
      match (l.drop 4).dropWhile (fun c => c != '=') with
      | [] => none
      | _ :: r2 =>
        if (r2.takeWhile (fun c => c != '&')).isEmpty then none
        else some (r2.dropWhile (fun c => c != '&'))
  else none

/-- The substitution `re.sub(r"(\\?|&)(utm_[^=]+=[^&]+)", "", u)`,
repeated-scan worker: walk left to right; at a `?` or `&` followed by a
full `utm_[^=]+=[^&]+` match, drop separator and parameter and continue
after the match.  The fuel argument only bounds the recursion (a
successful `matchUtm` always returns a shorter suffix, so fuel equal to
the list length is never exhausted). -/
def subUtmGo : Nat → List Char → List Char
  | _, [] => []
  | 0, l => l
  | fuel + 1, c :: rest =>
    if c = '?' ∨ c = '&' then
      match matchUtm rest with
      | some rest2 => subUtmGo fuel rest2
      | none => c :: subUtmGo fuel rest
    else c :: subUtmGo fuel rest

/-- The tracking-parameter substitution on a whole character list. -/
def subUtm (l : List Char) : List Char :=
  subUtmGo l.length l

/-- Remove every trailing occurrence of `c` (Python `str.rstrip(c)`). -/
def rstripAll (c : Char) (l : List Char) : List Char :=
  (l.reverse.dropWhile (· == c)).reverse

/-- Embedding of `DeduplicationManager._canonicalize_url`: empty input
is returned unchanged; otherwise strip, lowercase, remove `utm_`
tracking parameters, and strip trailing `&` then trailing `?`. -/
def canonicalize_url (u : String) : String :=
  if u = "" then u
  else
    let t := (stripChars u.data).map pyLowerChar
    ⟨rstripAll '?' (rstripAll '&' (subUtm t))⟩

/-- The three persisted identity-signal sets of the deduplication
manager. -/
structure DedupState where
  seen_urls : Finset String
  seen_thumbnails : Finset String
  seen_products : Finset String
deriving DecidableEq

/-- An input CSV row as `deduplicate_file` sees it after
`_normalize_columns` (all modelled columns present; `url` and
`thumbnail` after `astype(str)`, so a missing cell is the literal
string `"nan"`). -/
structure DRow where
  url : String
  thumbnail : String
  product_id : Option String
  brand_clean : Option String
  product_clean : Option String
  category_clean : Option String
deriving DecidableEq

/-- The column normalization step: canonicalize the URL, strip the
thumbnail. -/
def canonRow (r : DRow) : DRow :=
  { r with url := canonicalize_url r.url, thumbnail := trimString r.thumbnail }

/-- Embedding of `DeduplicationManager._md5` after `astype(str)`:
`None` for the empty string, otherwise the hash of the string (the
hash function itself is an explicit parameter). -/
def thumbHash (md5fn : String → String) (r : DRow) : Option String :=
  if r.thumbnail = "" then none else some (md5fn r.thumbnail)

/-- Python `.str.lower().str.strip()`. -/
def pyLowerStrip (s : String) : String :=
  ⟨stripChars (s.data.map pyLowerChar)⟩

/-- The intra-batch `logical_key`:
`brand_clean.fillna("none") + "_" + product_clean.fillna("none") + "_" +
category_clean.astype(str)` (a missing category reads back as the
string `"nan"`), each part lowercased and stripped. -/
def logicalKey (r : DRow) : String :=
  pyLowerStrip (r.brand_clean.getD "none") ++ "_" ++
    pyLowerStrip (r.product_clean.getD "none") ++ "_" ++
    pyLowerStrip (r.category_clean.getD "nan")

/-- Per-row classification of `deduplicate_file`
(`src/deduplication_manager.py`, lines 164-202) for one canonicalized
row, given the logical keys of the rows before it in the batch
(`duplicated(keep="first")`).  Returns `(row, dedup_reason, is_new)`
with the `np.select` priority `url > thumbnail > product_id > text`. -/
def dedupEntry (md5fn : String → String) (st : DedupState)
    (seenKeys : List String) (r : DRow) : DRow × String × Bool :=
  let urlDup := decide (r.url ∈ st.seen_urls)
  let thumbDup :=
    match thumbHash md5fn r with
    | some h => decide (h ∈ st.seen_thumbnails)
    | none => false
  let prodDup :=
    decide (st.seen_products ≠ ∅) &&
      (match r.product_id with
       | some p => decide (p ∈ st.seen_products)
       | none => false)
  let textDup := seenKeys.contains (logicalKey r)
  let reason :=
    if urlDup then "duplicate_url"
    else if thumbDup then "duplicate_thumbnail"
    else if prodDup then "duplicate_product_id"
    else if textDup then "duplicate_text"
    else "new_entry"
  (r, reason, !urlDup && !thumbDup && !prodDup && !textDup)

/-- Classification of a batch of canonicalized rows in order, threading
the intra-batch logical keys already seen. -/
def dedupFlagsAux (md5fn : String → String) (st : DedupState) :
    List String → List DRow → List (DRow × String × Bool)
  | _, [] => []
  | seenKeys, r :: rest =>
    dedupEntry md5fn st seenKeys r ::
      dedupFlagsAux md5fn st (seenKeys ++ [logicalKey r]) rest

/-- Classification of a whole batch, starting from no seen intra-batch
keys, on the canonicalized rows. -/
def dedupFlags (md5fn : String → String) (st : DedupState)
    (batch : List DRow) : List (DRow × String × Bool) :=
  dedupFlagsAux md5fn st [] (batch.map canonRow)

/-- Embedding of `DeduplicationManager.deduplicate_file`
(`src/deduplication_manager.py`, lines 164-218): returns
`(new_rows, dedup_reason column, updated state)`, where the three
persisted sets are updated with signals from the new rows only. -/
def deduplicate_file (md5fn : String → String) (st : DedupState)
    (batch : List DRow) : List DRow × List String × DedupState :=
  let flags := dedupFlags md5fn st batch
  let newRows := (flags.filter (fun t => t.2.2)).map (·.1)
  ⟨newRows,
   flags.map (fun t => t.2.1),
   { seen_urls := st.seen_urls ∪ (newRows.map (·.url)).toFinset,
     seen_thumbnails :=
       st.seen_thumbnails ∪ (newRows.filterMap (thumbHash md5fn)).toFinset,
     seen_products :=
       st.seen_products ∪ (newRows.filterMap (·.product_id)).toFinset }⟩

/-- Crash model of `DeduplicationManager._save_state_set`
(`src/deduplication_manager.py`, lines 69-72): the file contents
observable if the process dies at any point of the write.  `open(path,
"w")` first truncates the file in place, then the serialized payload is
written left to right; state `none` models a file that does not exist
yet.  The first state is the previous content, the state after opening
is the empty file, and the last state is the full new content. -/
def save_state_set_states (old : Option String) (content : String) :
    List (Option String) :=
  old :: (List.range (content.length + 1)).map (fun k => some ⟨content.data.take k⟩)

/-- Atomicity with respect to crashes: every observable intermediate
file state is either the previous content or the complete new
content. -/
def AtomicSave (old : Option String) (content : String) : Prop :=
  ∀ s ∈ save_state_set_states old content, s = old ∨ s = some content

/-- No two adjacent whitespace characters (the shape left behind by the
whitespace-collapse stage). -/
def NoTwoSpaces (l : List Char) : Prop :=
  List.Chain' (fun a b => ¬(isSpaceChar a = true ∧ isSpaceChar b = true)) l

/-- A semantic scorer that returns `0` for every pair, used to
instantiate the embedding-manager parameter in concrete scenarios. -/
def semZero : String → String → ℚ := fun _ _ => 0

/-- Concrete scenario: product `A` listed at retailer `R1`. -/
def cxRowA1 : PRow :=
  prepareRow "A" "Soap Alpha" (.str "BrandX") (.str "Soap") (.str "R1") (.num 50) (some "ml")

/-- Concrete scenario: the same product `A` listed at retailer `R2`. -/
def cxRowA2 : PRow :=
  prepareRow "A" "Soap Alpha" (.str "BrandX") (.str "Soap") (.str "R2") (.num 50) (some "ml")

/-- Concrete scenario: product `B` listed at retailer `R1`. -/
def cxRowB1 : PRow :=
  prepareRow "B" "Soap Alpha" (.str "BrandX") (.str "Soap") (.str "R1") (.num 50) (some "ml")

/-- Concrete scenario: product `B` listed at retailer `R2`. -/
def cxRowB2 : PRow :=
  prepareRow "B" "Soap Alpha" (.str "BrandX") (.str "Soap") (.str "R2") (.num 50) (some "ml")

/-- A four-row dataset: two products, each listed at two retailers,
with identical names, brand, category and size. -/
def cxDataset : List PRow := [cxRowA1, cxRowA2, cxRowB1, cxRowB2]

/-- A recovery-pass row: catalog item `P1` at retailer `r1`, with a
name sharing no token with its counterpart below. -/
def cxURow1 : URow :=
  { product_id := "P1", product_name := "Alpha One", brand_name := .nan,
    category_name := some "Serums", product_clean := "alpha one",
    brand_clean := Option.none, retailer_clean := "r1", retailer_name := .str "R1",
    size_value := .missing, size_unit := Option.none }

/-- The same catalog item `P1` at retailer `r2` under a lexically
unrelated name. -/
def cxURow2 : URow :=
  { product_id := "P1", product_name := "Beta Two", brand_name := .nan,
    category_name := some "Serums", product_clean := "beta two",
    brand_clean := Option.none, retailer_clean := "r2", retailer_name := .str "R2",
    size_value := .missing, size_unit := Option.none }

/-- A recovery-pass row whose cleaned name is the generic title
`"shampoo bar"`. -/
def cxGenRow : URow :=
  { product_id := "P2", product_name := "Shampoo Bar", brand_name := .nan,
    category_name := some "Hair", product_clean := "shampoo bar",
    brand_clean := Option.none, retailer_clean := "r1", retailer_name := .str "R1",
    size_value := .missing, size_unit := Option.none }

/-- A recovery-pass row with the same `product_id` and a specific
(non-generic) cleaned name, at another retailer. -/
def cxSpecRow : URow :=
  { product_id := "P2", product_name := "Garnier Shampoo Bar 60g", brand_name := .nan,
    category_name := some "Hair", product_clean := "garnier shampoo bar 60g",
    brand_clean := Option.none, retailer_clean := "r2", retailer_name := .str "R2",
    size_value := .missing, size_unit := Option.none }

/-- A primary-pass row whose cleaned name is the generic title
`"shampoo bar"`. -/
def cxGenPRow : PRow :=
  prepareRow "G1" "Shampoo Bar" .nan (.str "Hair") (.str "R1") .missing Option.none

/-- A primary-pass row with a specific (non-generic) cleaned name in
the same category. -/
def cxSpecPRow : PRow :=
  prepareRow "G2" "Garnier Shampoo Bar 60g" .nan (.str "Hair") (.str "R2") .missing Option.none

/-- A constant hash function standing in for `hashlib.md5` in concrete
deduplication scenarios. -/
def md5Const : String → String := fun _ => "h"

/-- A persisted deduplication state that has already seen the canonical
URL `"u1"`. -/
def cxDedupState : DedupState :=
  { seen_urls := {"u1"}, seen_thumbnails := ∅, seen_products := ∅ }

/-- An incoming row whose URL canonicalizes to the already-seen
`"u1"`. -/
def cxDRow : DRow :=
  { url := " U1 ", thumbnail := "", product_id := Option.none,
    brand_clean := Option.none, product_clean := Option.none,
    category_clean := Option.none }

/-- A two-point embedding used to exhibit a cosine of `-1`:
`"x"` embeds to `[1]`, every other text to `[-1]`. -/
noncomputable def embedCE : String → List ℝ :=
  fun t => if t = "x" then [1] else [-1]


/-!
Helper lemmas: shape of `normStr` outputs (character classes, no
adjacent whitespace) and the behaviour of the strip / collapse stages
on already-normalized text.
-/
theorem collapseRuns_cons_space_false {c : Char} (hc : isSpaceChar c = true) (t : List Char) :
    collapseRuns false (c :: t) = ' ' :: collapseRuns true t := by
  simp [collapseRuns, hc]

theorem collapseRuns_cons_space_true {c : Char} (hc : isSpaceChar c = true) (t : List Char) :
    collapseRuns true (c :: t) = collapseRuns true t := by
  simp [collapseRuns, hc]

theorem collapseRuns_cons_nonspace {c : Char} (hc : isSpaceChar c = false) (b : Bool)
    (t : List Char) : collapseRuns b (c :: t) = c :: collapseRuns false t := by
  simp [collapseRuns, hc]

theorem keep_not_space {c : Char} (h : keepChar c = true) : isSpaceChar c = false := by
  have h0 : '0' ≤ c := by
    simp only [keepChar, Bool.or_eq_true, Bool.and_eq_true, decide_eq_true_eq] at h
    rcases h with ⟨h1, _⟩ | ⟨h1, _⟩
    · exact le_trans (by decide) h1
    · exact h1
  by_contra hs
  rw [Bool.not_eq_false] at hs
  have hs' : c = ' ' ∨ c = '\t' ∨ c = '\n' ∨ c = '\r' ∨ c = '\x0b' ∨ c = '\x0c' := by
    simpa [isSpaceChar, or_assoc] using hs
  rcases hs' with rfl | rfl | rfl | rfl | rfl | rfl
  all_goals exact absurd h0 (by decide)

theorem pyLower_noop {c : Char} (h : keepChar c = true ∨ c = ' ') : pyLowerChar c = c := by
  unfold pyLowerChar
  rw [if_neg]
  rintro ⟨hA, hZ⟩
  rcases h with h | rfl
  · simp only [keepChar, Bool.or_eq_true, Bool.and_eq_true, decide_eq_true_eq] at h
    rcases h with ⟨h1, _⟩ | ⟨_, h2⟩
    · exact absurd (le_trans h1 hZ) (by decide)
    · exact absurd (le_trans hA h2) (by decide)
  · exact absurd hA (by decide)

theorem substChar_noop {c : Char} (h : keepChar c = true ∨ c = ' ') : substChar c = c := by
  rcases h with h | rfl
  · simp [substChar, h]
  · decide

theorem mem_collapseRuns {c : Char} :
    ∀ {b : Bool} {l : List Char}, c ∈ collapseRuns b l →
      (c ∈ l ∧ isSpaceChar c = false) ∨ c = ' ' := by
  intro b l
  induction l generalizing b with
  | nil => intro h; simp [collapseRuns] at h
  | cons d t ih =>
    intro h
    by_cases hd : isSpaceChar d
    · cases b with
      | true =>
        rw [collapseRuns_cons_space_true hd] at h
        rcases ih h with ⟨h1, h2⟩ | h1
        · exact Or.inl ⟨List.mem_cons_of_mem _ h1, h2⟩
        · exact Or.inr h1
      | false =>
        rw [collapseRuns_cons_space_false hd] at h
        rcases List.mem_cons.1 h with rfl | h'
        · exact Or.inr rfl
        · rcases ih h' with ⟨h1, h2⟩ | h1
          · exact Or.inl ⟨List.mem_cons_of_mem _ h1, h2⟩
          · exact Or.inr h1
    · rw [collapseRuns_cons_nonspace (by simpa using hd)] at h
      rcases List.mem_cons.1 h with rfl | h'
      · exact Or.inl ⟨List.mem_cons_self _ _, by simpa using hd⟩
      · rcases ih h' with ⟨h1, h2⟩ | h1
        · exact Or.inl ⟨List.mem_cons_of_mem _ h1, h2⟩
        · exact Or.inr h1

theorem collapseRuns_true_head :
    ∀ {l : List Char} {c : Char} {t : List Char},
      collapseRuns true l = c :: t → isSpaceChar c = false := by
  intro l
  induction l with
  | nil => intro c t h; simp [collapseRuns] at h
  | cons d rest ih =>
    intro c t h
    by_cases hd : isSpaceChar d
    · rw [collapseRuns_cons_space_true hd] at h
      exact ih h
    · rw [collapseRuns_cons_nonspace (by simpa using hd)] at h
      obtain ⟨rfl, -⟩ := List.cons.inj h
      simpa using hd

theorem noTwo_collapseRuns : ∀ (b : Bool) (l : List Char), NoTwoSpaces (collapseRuns b l) := by
  intro b l
  induction l generalizing b with
  | nil => simp [collapseRuns, NoTwoSpaces]
  | cons d t ih =>
    by_cases hd : isSpaceChar d
    · cases b with
      | true =>
        rw [collapseRuns_cons_space_true hd]
        exact ih true
      | false =>
        rw [collapseRuns_cons_space_false hd]
        unfold NoTwoSpaces
        rw [List.chain'_cons']
        refine ⟨?_, ih true⟩
        intro y hy
        cases hX : collapseRuns true t with
        | nil => rw [hX] at hy; simp at hy
        | cons c t' =>
          rw [hX] at hy
          simp only [List.head?_cons, Option.mem_def, Option.some.injEq] at hy
          subst hy
          have hns := collapseRuns_true_head hX
          intro hcontra
          rw [hns] at hcontra
          exact absurd hcontra.2 (by simp)
    · rw [collapseRuns_cons_nonspace (by simpa using hd)]
      unfold NoTwoSpaces
      rw [List.chain'_cons']
      refine ⟨?_, ih false⟩
      intro y _
      intro hcontra
      exact absurd hcontra.1 (by simpa using hd)

theorem noTwo_tail {d : Char} {t : List Char} (h : NoTwoSpaces (d :: t)) : NoTwoSpaces t :=
  List.Chain'.tail h

theorem collapseRuns_noop :
    ∀ (l : List Char), (∀ c ∈ l, keepChar c = true ∨ c = ' ') → NoTwoSpaces l →
      collapseRuns false l = l := by
  intro l
  induction l with
  | nil => intro _ _; rfl
  | cons d t ih =>
    intro h1 h2
    have hd_case := h1 d (List.mem_cons_self _ _)
    by_cases hd : isSpaceChar d
    · have hd' : d = ' ' := by
        rcases hd_case with hk | rfl
        · rw [keep_not_space hk] at hd; exact absurd hd (by simp)
        · rfl
      subst hd'
      rw [collapseRuns_cons_space_false (by decide)]
      cases t with
      | nil => rfl
      | cons c t' =>
        have hc : isSpaceChar c = false := by
          unfold NoTwoSpaces at h2
          rw [List.chain'_cons] at h2
          by_contra hcc
          rw [Bool.not_eq_false] at hcc
          exact h2.1 ⟨by decide, hcc⟩
        have htail : collapseRuns false (c :: t') = c :: t' :=
          ih (fun x hx => h1 x (List.mem_cons_of_mem _ hx)) (noTwo_tail h2)
        rw [collapseRuns_cons_nonspace hc] at htail ⊢
        rw [htail]
    · rw [collapseRuns_cons_nonspace (by simpa using hd)]
      have := ih (fun x hx => h1 x (List.mem_cons_of_mem _ hx)) (noTwo_tail h2)
      rw [this]

theorem mem_stripChars {c : Char} {l : List Char} (h : c ∈ stripChars l) : c ∈ l := by
  unfold stripChars at h
  rw [List.mem_reverse] at h
  have h1 := (List.dropWhile_sublist _).subset h
  rw [List.mem_reverse] at h1
  exact (List.dropWhile_sublist _).subset h1

theorem noTwo_reverse {l : List Char} (h : NoTwoSpaces l) : NoTwoSpaces l.reverse := by
  unfold NoTwoSpaces at *
  rw [List.chain'_reverse]
  exact h.imp fun a b hab => fun hx => hab ⟨hx.2, hx.1⟩

theorem noTwo_dropWhile {p : Char → Bool} {l : List Char} (h : NoTwoSpaces l) :
    NoTwoSpaces (l.dropWhile p) := by
  obtain ⟨pre, hpre⟩ := List.dropWhile_suffix (l := l) p
  unfold NoTwoSpaces at *
  rw [← hpre] at h
  exact h.right_of_append

theorem noTwo_stripChars {l : List Char} (h : NoTwoSpaces l) : NoTwoSpaces (stripChars l) :=
  noTwo_reverse (noTwo_dropWhile (noTwo_reverse (noTwo_dropWhile h)))

theorem dropWhile_idem {p : Char → Bool} {l : List Char} :
    List.dropWhile p (List.dropWhile p l) = List.dropWhile p l := by
  cases hX : List.dropWhile p l with
  | nil => rfl
  | cons c t =>
    have hc' := List.head?_dropWhile_not p l
    rw [hX] at hc'
    simp only [List.head?_cons] at hc'
    rw [List.dropWhile_cons, if_neg (by simp [hc'])]

theorem dropWhile_stripChars {l : List Char} :
    List.dropWhile isSpaceChar (stripChars l) = stripChars l := by
  cases hbc : stripChars l with
  | nil => rfl
  | cons c t =>
    have hpre : stripChars l <+: List.dropWhile isSpaceChar l := by
      have h1 : (stripChars l).reverse <:+ (List.dropWhile isSpaceChar l).reverse := by
        show ((List.dropWhile isSpaceChar
            ((List.dropWhile isSpaceChar l).reverse)).reverse).reverse <:+ _
        rw [List.reverse_reverse]
        exact List.dropWhile_suffix _
      exact List.reverse_suffix.mp h1
    rw [hbc] at hpre
    obtain ⟨u, hu⟩ := hpre
    have hDl : List.dropWhile isSpaceChar l = c :: (t ++ u) := by
      rw [← hu]; simp
    have hc' := List.head?_dropWhile_not isSpaceChar l
    rw [hDl] at hc'
    simp only [List.head?_cons] at hc'
    rw [List.dropWhile_cons, if_neg (by simp [hc'])]

theorem stripChars_idem {l : List Char} : stripChars (stripChars l) = stripChars l := by
  have h1 : stripChars (stripChars l) =
      (List.dropWhile isSpaceChar
        ((List.dropWhile isSpaceChar (stripChars l)).reverse)).reverse := rfl
  rw [h1, dropWhile_stripChars]
  have h2 : (stripChars l).reverse =
      List.dropWhile isSpaceChar ((List.dropWhile isSpaceChar l).reverse) := by
    show ((List.dropWhile isSpaceChar
        ((List.dropWhile isSpaceChar l).reverse)).reverse).reverse = _
    rw [List.reverse_reverse]
  rw [h2, dropWhile_idem]
  rfl

theorem normStr_eq_trim_of_inv {y : String}
    (h1 : ∀ c ∈ y.data, keepChar c = true ∨ c = ' ')
    (h2 : NoTwoSpaces y.data) : normStr y = trimString y := by
  unfold normStr trimString
  congr 1
  have hlower : y.data.map pyLowerChar = y.data := by
    have := List.map_congr_left (l := y.data) (f := pyLowerChar) (g := id)
      (fun c hc => pyLower_noop (h1 c hc))
    simpa using this
  rw [hlower]
  have hsubst : (stripChars y.data).map substChar = stripChars y.data := by
    have := List.map_congr_left (l := stripChars y.data) (f := substChar) (g := id)
      (fun c hc => substChar_noop (h1 c (mem_stripChars hc)))
    simpa using this
  rw [hsubst]
  exact collapseRuns_noop _ (fun c hc => h1 c (mem_stripChars hc)) (noTwo_stripChars h2)

theorem normStr_chars (s : String) :
    ∀ c ∈ (normStr s).data, keepChar c = true ∨ c = ' ' := by
  intro c hc
  replace hc : c ∈ collapseRuns false
      ((stripChars (s.data.map pyLowerChar)).map substChar) := hc
  rcases mem_collapseRuns hc with ⟨hmem, hns⟩ | rfl
  · obtain ⟨x, _, rfl⟩ := List.mem_map.1 hmem
    unfold substChar at hns ⊢
    by_cases hk : (keepChar x || isSpaceChar x) = true
    · rw [if_pos hk] at hns ⊢
      rcases (by simpa using hk : keepChar x = true ∨ isSpaceChar x = true) with hx | hx
      · exact Or.inl hx
      · rw [hx] at hns; exact absurd hns (by simp)
    · rw [if_neg hk]
      exact Or.inr rfl
  · exact Or.inr rfl

theorem normStr_noTwo (s : String) : NoTwoSpaces (normStr s).data :=
  noTwo_collapseRuns false _

theorem trimString_idem {y : String} : trimString (trimString y) = trimString y :=
  congrArg String.mk stripChars_idem

theorem normStr_third (s : String) :
    normStr (normStr (normStr s)) = normStr (normStr s) := by
  have hy1 := normStr_chars s
  have hy2 := normStr_noTwo s
  rw [normStr_eq_trim_of_inv hy1 hy2]
  have ht1 : ∀ c ∈ (trimString (normStr s)).data, keepChar c = true ∨ c = ' ' :=
    fun c hc => hy1 c (mem_stripChars hc)
  have ht2 : NoTwoSpaces (trimString (normStr s)).data := noTwo_stripChars hy2
  rw [normStr_eq_trim_of_inv ht1 ht2, trimString_idem]


/-!
Helper lemmas: the rounding error bound of Python `round(_, 1)`, the
Cauchy-Schwarz bound for list dot products, and structural lemmas for
the deduplication classifier.
-/
theorem roundHalfEven_abs_le (x : ℚ) : |(roundHalfEven x : ℚ) - x| ≤ 1 / 2 := by
  have h1 : ((Int.floor x : ℤ) : ℚ) ≤ x := Int.floor_le x
  have h2 : x < (Int.floor x : ℤ) + 1 := Int.lt_floor_add_one x
  simp only [roundHalfEven]
  split_ifs with hf1 hf2 hf3
  · rw [abs_le]; constructor <;> linarith
  · rw [abs_le]; constructor <;> push_cast <;> linarith
  · rw [abs_le]; constructor <;> linarith
  · rw [abs_le]; constructor <;> push_cast <;> linarith

theorem pyRound1_abs_le (x : ℚ) : |pyRound1 x - x| ≤ 1 / 20 := by
  have h := roundHalfEven_abs_le (10 * x)
  unfold pyRound1
  have heq : ((roundHalfEven (10 * x) : ℤ) : ℚ) / 10 - x =
      (((roundHalfEven (10 * x) : ℤ) : ℚ) - 10 * x) / 10 := by ring
  rw [heq, abs_div]
  rw [show |(10 : ℚ)| = 10 by norm_num]
  linarith [h]

theorem dotL_self_nonneg (v : List ℝ) : 0 ≤ dotL v v := by
  induction v with
  | nil => simp [dotL]
  | cons x xs ih => simpa [dotL] using by nlinarith [sq_nonneg x, ih]

theorem dotL_sq_le (v w : List ℝ) : (dotL v w) ^ 2 ≤ dotL v v * dotL w w := by
  induction v generalizing w with
  | nil => simp [dotL]
  | cons a vs ih =>
    cases w with
    | nil => simp [dotL]
    | cons b ws =>
      have hA := dotL_self_nonneg vs
      have hB := dotL_self_nonneg ws
      have ihw := ih ws
      show (a * b + dotL vs ws) ^ 2 ≤ (a * a + dotL vs vs) * (b * b + dotL ws ws)
      rcases eq_or_lt_of_le hB with hB0 | hBpos
      · have hd : dotL vs ws = 0 := by nlinarith [sq_nonneg (dotL vs ws)]
        rw [hd, ← hB0]
        nlinarith [mul_nonneg hA (sq_nonneg b)]
      · nlinarith [sq_nonneg (a * dotL ws ws - b * dotL vs ws),
          mul_nonneg (sub_nonneg.mpr ihw) (add_nonneg (sq_nonneg b) hB),
          mul_pos hBpos hBpos]

theorem abs_cosineSim_le_one (v w : List ℝ) : |cosineSim v w| ≤ 1 := by
  unfold cosineSim
  have hA := dotL_self_nonneg v
  have hB := dotL_self_nonneg w
  by_cases hz : Real.sqrt (dotL v v) * Real.sqrt (dotL w w) = 0
  · rw [hz, div_zero]; norm_num
  · have hpos : 0 < Real.sqrt (dotL v v) * Real.sqrt (dotL w w) :=
      lt_of_le_of_ne (mul_nonneg (Real.sqrt_nonneg _) (Real.sqrt_nonneg _)) (Ne.symm hz)
    rw [abs_div, abs_of_pos hpos, div_le_one hpos]
    have h1 : |dotL v w| = Real.sqrt ((dotL v w) ^ 2) := (Real.sqrt_sq_eq_abs _).symm
    rw [h1]
    calc Real.sqrt ((dotL v w) ^ 2) ≤ Real.sqrt (dotL v v * dotL w w) :=
          Real.sqrt_le_sqrt (dotL_sq_le v w)
      _ = Real.sqrt (dotL v v) * Real.sqrt (dotL w w) := Real.sqrt_mul hA _

theorem dedupFlagsAux_append (md5fn : String → String) (st : DedupState)
    (ks : List String) (xs ys : List DRow) :
    dedupFlagsAux md5fn st ks (xs ++ ys) =
      dedupFlagsAux md5fn st ks xs ++
        dedupFlagsAux md5fn st (ks ++ xs.map logicalKey) ys := by
  induction xs generalizing ks with
  | nil => simp [dedupFlagsAux]
  | cons x xs ih =>
    calc dedupFlagsAux md5fn st ks ((x :: xs) ++ ys)
        = dedupEntry md5fn st ks x :: dedupFlagsAux md5fn st (ks ++ [logicalKey x]) (xs ++ ys) :=
          rfl
      _ = dedupEntry md5fn st ks x :: (dedupFlagsAux md5fn st (ks ++ [logicalKey x]) xs ++
            dedupFlagsAux md5fn st ((ks ++ [logicalKey x]) ++ xs.map logicalKey) ys) := by
          rw [ih]
      _ = dedupFlagsAux md5fn st ks (x :: xs) ++
            dedupFlagsAux md5fn st (ks ++ (x :: xs).map logicalKey) ys := by
          simp [dedupFlagsAux, List.append_assoc]

theorem dedupFlagsAux_length (md5fn : String → String) (st : DedupState)
    (ks : List String) (xs : List DRow) :
    (dedupFlagsAux md5fn st ks xs).length = xs.length := by
  induction xs generalizing ks with
  | nil => rfl
  | cons x xs ih => simp [dedupFlagsAux, ih]

/-!
Claim theorems.  Each claim of the specification review is settled by
exactly one theorem below, with a closed witness or counterexample where
required.
-/

/-- C1 (amended): in both passes a pair whose two rows carry the same
`product_id` and the same normalized retailer is skipped and never
emitted.  (The original claim's stronger uniqueness — no unordered
`{product_1, product_2}` id combination appearing twice in the
consolidated set — fails; see the counterexample.) -/
theorem C1_no_self_pair_same_retailer (sem : String → String → ℚ)
    (r1 r2 : PRow) (u1 u2 : URow) :
    (r1.product_id = r2.product_id → r1.retailer_clean = r2.retailer_clean →
      emitPairEnhanced sem r1 r2 = none) ∧
    (u1.product_id = u2.product_id → u1.retailer_clean = u2.retailer_clean →
      emitPairPost u1 u2 = none) := by
  constructor
  · intro h1 h2
    unfold emitPairEnhanced
    rw [if_pos ⟨h1, h2⟩]
  · intro h1 h2
    unfold emitPairPost
    rw [if_pos ⟨h1, h2⟩]

/-- C1 witness: the guards fire on concrete equal-id, equal-retailer
rows in both passes. -/
theorem C1_no_self_pair_same_retailer_witness :
    emitPairEnhanced semZero cxRowA1 cxRowA1 = none ∧
    emitPairPost cxURow1 cxURow1 = none :=
  ⟨(C1_no_self_pair_same_retailer semZero cxRowA1 cxRowA1 cxURow1 cxURow1).1 rfl rfl,
   (C1_no_self_pair_same_retailer semZero cxRowA1 cxRowA1 cxURow1 cxURow1).2 rfl rfl⟩

/-- C1 counterexample: on a dataset where two products are each listed
at two retailers, the consolidated output of the two-pass pipeline
contains the same unordered `{product_1, product_2}` id combination in
more than one pair, contradicting the claimed uniqueness invariant. -/
theorem C1_duplicate_unordered_pair_counterexample :
    hasDupUnorderedPair (pipeline_final_matches semZero cxDataset) = true := by
  with_unfolding_all decide

/-- C2 (amended): two recovery-pass rows with identical `product_id`
and different normalized retailers always yield an emitted pair with
forced similarity `100`, regardless of the lexical sub-scores — but in
the consolidated output `merge_results` labels every recovery pair with
confidence tier `LOW`, not `HIGH` as claimed. -/
theorem C2_forced_id_match_tier_low (u1 u2 : URow)
    (hid : u1.product_id = u2.product_id)
    (hret : u1.retailer_clean ≠ u2.retailer_clean) :
    ∃ m, emitPairPost u1 u2 = some m ∧ m.similarity = 100 ∧
      (toConsPost m).confidence_tier = some "LOW" := by
  unfold emitPairPost
  rw [if_neg (by rintro ⟨-, h⟩; exact hret h)]
  simp only [hid, eq_self_iff_true, if_true]
  rw [if_pos (by with_unfolding_all decide :
    POST_MIN_SIMILARITY ≤ max 0 (min 100 100))]
  refine ⟨_, rfl, ?_, rfl⟩
  show pyRound1 (max 0 (min 100 100)) = 100
  with_unfolding_all decide

/-- C2 witness: concrete same-id rows with lexically unrelated names
are forced to similarity `100` and tier `LOW`. -/
theorem C2_forced_id_match_tier_low_witness :
    ∃ m, emitPairPost cxURow1 cxURow2 = some m ∧ m.similarity = 100 ∧
      (toConsPost m).confidence_tier = some "LOW" :=
  C2_forced_id_match_tier_low cxURow1 cxURow2 rfl (by decide)

/-- C2 counterexample: feeding two same-id rows through the recovery
pass and the consolidation step yields the tier `LOW`, not the `HIGH`
the claim asserts. -/
theorem C2_tier_low_not_high_counterexample :
    (merge_results_combined [] (find_matches_in_unmatched [cxURow1, cxURow2])).map
        (fun m => m.confidence_tier) = [some "LOW"] ∧
      (some "LOW" : Option String) ≠ some "HIGH" :=
  ⟨by with_unfolding_all decide, by decide⟩

/-- C3 (amended): for every input, `normalize_text` returns a string
whose characters are all lowercase alphanumerics or single spaces with
no two adjacent whitespace characters, and `None`, `NaN` and the empty
string map to the empty string without error.  (Full leading/trailing
stripping fails — stripping happens before punctuation replacement —
so at most one leading and one trailing space can remain; see the
counterexample.) -/
theorem C3_normalize_text_shape :
    (∀ t : PyText, (∀ c ∈ (normalize_text t).data, keepChar c = true ∨ c = ' ') ∧
      NoTwoSpaces (normalize_text t).data) ∧
    normalize_text .none = "" ∧ normalize_text .nan = "" ∧
    normalize_text (.str "") = "" := by
  refine ⟨fun t => ?_, rfl, rfl, rfl⟩
  cases t with
  | none => exact ⟨fun c hc => absurd hc (List.not_mem_nil c), List.chain'_nil⟩
  | nan => exact ⟨fun c hc => absurd hc (List.not_mem_nil c), List.chain'_nil⟩
  | str s => exact ⟨normStr_chars s, normStr_noTwo s⟩

/-- C3 witness: the character-class property instantiated at the
concrete input `"a!"` and its first character. -/
theorem C3_normalize_text_shape_witness :
    keepChar 'a' = true ∨ 'a' = ' ' :=
  (C3_normalize_text_shape.1 (.str "a!")).1 'a' (by decide)

/-- C3 counterexample: `normalize_text "a!"` is `"a "` — the trailing
space produced by replacing `!` survives, so the output is not
stripped of trailing whitespace as claimed. -/
theorem C3_trailing_space_counterexample :
    normalize_text (.str "a!") = "a " ∧
    normalize_text (.str "a!") ≠ trimString (normalize_text (.str "a!")) :=
  ⟨by decide, by decide⟩

/-- C4 (amended): text normalization is not idempotent (see the
counterexample), but it stabilizes after two applications: for every
string, a third application of `normalize_text` changes nothing. -/
theorem C4_normalize_eventually_idempotent (x : String) :
    normalize_text (.str (normalize_text (.str (normalize_text (.str x))))) =
      normalize_text (.str (normalize_text (.str x))) :=
  normStr_third x

/-- C4 counterexample: `normalize_text` is not idempotent at `"a!"`:
the first application yields `"a "`, the second `"a"`. -/
theorem C4_idempotence_counterexample :
    normalize_text (.str (normalize_text (.str "a!"))) ≠ normalize_text (.str "a!") := by
  decide

/-- C5 (amended): `compute_semantic_similarity` is the cosine
similarity multiplied by `100`, an affine map of `[-1, 1]` onto
`[-100, 100]` (not onto `[0, 100]` as the spec claims); by
Cauchy-Schwarz its value always lies in `[-100, 100]`. -/
theorem C5_semantic_scale (embed : String → List ℝ) (t1 t2 : String) :
    compute_semantic_similarity embed t1 t2 = cosineSim (embed t1) (embed t2) * 100 ∧
    -100 ≤ compute_semantic_similarity embed t1 t2 ∧
    compute_semantic_similarity embed t1 t2 ≤ 100 := by
  have h := abs_cosineSim_le_one (embed t1) (embed t2)
  rw [abs_le] at h
  refine ⟨rfl, ?_, ?_⟩ <;>
    · unfold compute_semantic_similarity
      nlinarith [h.1, h.2]

/-- C5 counterexample: for antipodal unit embeddings the code returns
`-100` while the claimed `[-1,1] → [0,100]` rescaling would give `0`. -/
theorem C5_rescale_counterexample :
    compute_semantic_similarity embedCE "x" "y" = -100 ∧
    semantic_similarity_spec_rescaled embedCE "x" "y" = 0 ∧
    compute_semantic_similarity embedCE "x" "y" ≠
      semantic_similarity_spec_rescaled embedCE "x" "y" := by
  have hx : embedCE "x" = [1] := by simp [embedCE]
  have hy : embedCE "y" = [-1] := by
    simp only [embedCE]
    rw [if_neg (by decide)]
  have hcs : cosineSim (embedCE "x") (embedCE "y") = -1 := by
    rw [hx, hy]
    simp [cosineSim, dotL, Real.sqrt_one]
  refine ⟨?_, ?_, ?_⟩
  · unfold compute_semantic_similarity
    rw [hcs]; norm_num
  · unfold semantic_similarity_spec_rescaled
    rw [hcs]; norm_num
  · unfold compute_semantic_similarity semantic_similarity_spec_rescaled
    rw [hcs]; norm_num

/-- C6 (amended): the generic-title guard holds in the primary pass —
a pair with exactly one generic side is rejected before scoring, for
every semantic scorer — but only there; the recovery pass has no such
guard (see the counterexample). -/
theorem C6_generic_guard_primary_only (sem : String → String → ℚ) (r1 r2 : PRow)
    (h : is_generic_title r1.product_clean ≠ is_generic_title r2.product_clean) :
    emitPairEnhanced sem r1 r2 = none := by
  unfold emitPairEnhanced
  by_cases hskip : r1.product_id = r2.product_id ∧ r1.retailer_clean = r2.retailer_clean
  · rw [if_pos hskip]
  · rw [if_neg hskip, if_pos h]

/-- C6 witness: the primary pass rejects the concrete generic/specific
pair. -/
theorem C6_generic_guard_primary_only_witness :
    is_generic_title cxGenPRow.product_clean ≠ is_generic_title cxSpecPRow.product_clean ∧
    emitPairEnhanced semZero cxGenPRow cxSpecPRow = none :=
  ⟨by decide, C6_generic_guard_primary_only semZero cxGenPRow cxSpecPRow (by decide)⟩

/-- C6 counterexample: the recovery pass emits a `MatchPair` for a pair
whose sides are the generic `"shampoo bar"` and a specific name,
contradicting the claim that such pairs are rejected in either pass. -/
theorem C6_recovery_generic_counterexample :
    is_generic_title cxGenRow.product_clean = true ∧
    is_generic_title cxSpecRow.product_clean = false ∧
    (find_matches_in_unmatched [cxGenRow, cxSpecRow]).length = 1 :=
  ⟨by decide, by decide, by with_unfolding_all decide⟩

/-- C7: a row whose canonical URL is already in the persisted URL set
is classified `duplicate_url`, excluded from the returned new rows, and
contributes nothing to the persisted URL set — wherever it sits in the
batch; for a singleton batch the URL set is unchanged. -/
theorem C7_duplicate_url_classification (md5fn : String → String)
    (st : DedupState) (r : DRow) (pre post : List DRow)
    (hdup : canonicalize_url r.url ∈ st.seen_urls) :
    ∃ fpre fpost,
      dedupFlags md5fn st (pre ++ r :: post) =
        fpre ++ (canonRow r, "duplicate_url", false) :: fpost ∧
      fpre.length = pre.length ∧
      (deduplicate_file md5fn st (pre ++ r :: post)).1 =
        ((fpre ++ fpost).filter (fun t => t.2.2)).map (fun t => t.1) ∧
      (deduplicate_file md5fn st (pre ++ r :: post)).2.1 =
        fpre.map (fun t => t.2.1) ++ "duplicate_url" :: fpost.map (fun t => t.2.1) ∧
      (deduplicate_file md5fn st (pre ++ r :: post)).2.2.seen_urls =
        st.seen_urls ∪
          ((((fpre ++ fpost).filter (fun t => t.2.2)).map (fun t => t.1)).map
            (fun t => t.url)).toFinset ∧
      (deduplicate_file md5fn st [r]).2.2.seen_urls = st.seen_urls := by
  have hentry : ∀ ks, dedupEntry md5fn st ks (canonRow r) =
      (canonRow r, "duplicate_url", false) := by
    intro ks
    have hd : decide ((canonRow r).url ∈ st.seen_urls) = true := decide_eq_true hdup
    simp [dedupEntry, hd]
  have hflags : dedupFlags md5fn st (pre ++ r :: post) =
      dedupFlagsAux md5fn st [] (pre.map canonRow) ++
        (canonRow r, "duplicate_url", false) ::
          dedupFlagsAux md5fn st
            ((pre.map canonRow).map logicalKey ++ [logicalKey (canonRow r)])
            (post.map canonRow) := by
    unfold dedupFlags
    rw [List.map_append, List.map_cons, dedupFlagsAux_append]
    congr 1
    rw [List.nil_append]
    show dedupEntry md5fn st ((pre.map canonRow).map logicalKey) (canonRow r) ::
        dedupFlagsAux md5fn st
          ((pre.map canonRow).map logicalKey ++ [logicalKey (canonRow r)])
          (post.map canonRow) = _
    rw [hentry]
  refine ⟨dedupFlagsAux md5fn st [] (pre.map canonRow),
    dedupFlagsAux md5fn st ((pre.map canonRow).map logicalKey ++ [logicalKey (canonRow r)])
      (post.map canonRow), hflags, ?_, ?_, ?_, ?_, ?_⟩
  · rw [dedupFlagsAux_length]
    simp
  · show ((dedupFlags md5fn st (pre ++ r :: post)).filter (fun t => t.2.2)).map
        (fun t => t.1) = _
    rw [hflags]
    simp [List.filter_append]
  · show (dedupFlags md5fn st (pre ++ r :: post)).map (fun t => t.2.1) = _
    rw [hflags]
    simp
  · show st.seen_urls ∪
        ((((dedupFlags md5fn st (pre ++ r :: post)).filter (fun t => t.2.2)).map
          (fun t => t.1)).map (fun t => t.url)).toFinset = _
    rw [hflags]
    simp [List.filter_append]
  · show st.seen_urls ∪
        ((((dedupFlags md5fn st [r]).filter (fun t => t.2.2)).map (fun t => t.1)).map
          (fun t => t.url)).toFinset = st.seen_urls
    have h1 : dedupFlags md5fn st [r] = [(canonRow r, "duplicate_url", false)] := by
      unfold dedupFlags
      show dedupEntry md5fn st [] (canonRow r) :: dedupFlagsAux md5fn st _ [] = _
      rw [hentry]
      rfl
    rw [h1]
    simp

/-- C7 witness: the classification at a concrete state and row whose
canonical URL is already seen. -/
theorem C7_duplicate_url_classification_witness :
    ∃ fpre fpost,
      dedupFlags md5Const cxDedupState ([] ++ cxDRow :: []) =
        fpre ++ (canonRow cxDRow, "duplicate_url", false) :: fpost ∧
      fpre.length = ([] : List DRow).length ∧
      (deduplicate_file md5Const cxDedupState ([] ++ cxDRow :: [])).1 =
        ((fpre ++ fpost).filter (fun t => t.2.2)).map (fun t => t.1) ∧
      (deduplicate_file md5Const cxDedupState ([] ++ cxDRow :: [])).2.1 =
        fpre.map (fun t => t.2.1) ++ "duplicate_url" :: fpost.map (fun t => t.2.1) ∧
      (deduplicate_file md5Const cxDedupState ([] ++ cxDRow :: [])).2.2.seen_urls =
        cxDedupState.seen_urls ∪
          ((((fpre ++ fpost).filter (fun t => t.2.2)).map (fun t => t.1)).map
            (fun t => t.url)).toFinset ∧
      (deduplicate_file md5Const cxDedupState [cxDRow]).2.2.seen_urls =
        cxDedupState.seen_urls :=
  C7_duplicate_url_classification md5Const cxDedupState cxDRow [] [] (by decide)

/-- C8 (amended): `_save_state_set` is not atomic with respect to
crashes: it truncates the target file in place before writing, so
whenever the previous content is not the empty file and the new payload
is non-empty, some crash point exposes a file state that is neither the
old nor the new content. -/
theorem C8_save_state_not_atomic (old : Option String) (content : String)
    (h1 : old ≠ some "") (h2 : content ≠ "") : ¬ AtomicSave old content := by
  intro hat
  have h0 : (0 : ℕ) ∈ List.range (content.length + 1) := List.mem_range.2 (by omega)
  have hmem : some (⟨content.data.take 0⟩ : String) ∈ save_state_set_states old content :=
    List.mem_cons_of_mem _ (List.mem_map_of_mem _ h0)
  have hmem' : some ("" : String) ∈ save_state_set_states old content := hmem
  rcases hat _ hmem' with h | h
  · exact h1 h.symm
  · exact h2 (Option.some.inj h).symm

/-- C8 witness: non-atomicity at a concrete previous content and
payload. -/
theorem C8_save_state_not_atomic_witness :
    (some "A" : Option String) ≠ some "" ∧ "BC" ≠ "" ∧ ¬ AtomicSave (some "A") "BC" :=
  ⟨by decide, by decide, C8_save_state_not_atomic (some "A") "BC" (by decide) (by decide)⟩

/-- C8 counterexample: the claimed write-temp-then-rename atomicity is
false — a crash between truncation and the completed write of
`"newdata"` over `"olddata"` leaves an empty file, which is neither the
old nor the new state. -/
theorem C8_atomicity_counterexample : ¬ AtomicSave (some "olddata") "newdata" := by
  intro hat
  have hmem : (some "" : Option String) ∈
      save_state_set_states (some "olddata") "newdata" := by decide
  rcases hat _ hmem with h | h <;> exact absurd h (by decide)

/-- C9 (amended): the emitted `coverage_percentage` equals
`matched_products / total_products * 100` rounded to one decimal place
(Python `round(_, 1)`), hence within `0.05` of the exact ratio — not
the exact ratio itself (see the counterexample). -/
theorem C9_coverage_rounded (post : List PostMatchPair) (unmatched : List URow) :
    (merge_results_stats post unmatched).coverage_percentage =
      pyRound1 ((merge_results_stats post unmatched).matched_products /
        (merge_results_stats post unmatched).total_products * 100) ∧
    |(merge_results_stats post unmatched).coverage_percentage -
        (merge_results_stats post unmatched).matched_products /
          (merge_results_stats post unmatched).total_products * 100| ≤ 1 / 20 :=
  ⟨rfl, pyRound1_abs_le _⟩

/-- C9 counterexample: with one remaining unmatched row the summary
reports `99.9`, while `100 * matched_products / total_products` is
`88700 / 888`, so the claimed exact equality fails. -/
theorem C9_exact_coverage_counterexample :
    (merge_results_stats [] [cxURow1]).coverage_percentage ≠
      100 * (merge_results_stats [] [cxURow1]).matched_products /
        (merge_results_stats [] [cxURow1]).total_products := by
  with_unfolding_all decide

/-- C10 (amended): `size_similarity_and_effect` is total and returns
the neutral `(50, 0)` when a size value or unit is missing, when a size
value fails to parse as a number, or when both values parse, the units
agree case-insensitively, and the larger value is `0`.  (When the units
differ, the unit branch returns `(0, -10)` before the zero-size guard
is reached; see the counterexample.) -/
theorem C10_size_guards_neutral (s1 : SizeVal) (u1 : Option String)
    (s2 : SizeVal) (u2 : Option String)
    (h : s1 = .missing ∨ s2 = .missing ∨ u1 = Option.none ∨ u2 = Option.none ∨
      (∃ t, s1 = .badstr t) ∨ (∃ t, s2 = .badstr t) ∨
      (∃ q1 q2 v1 v2, s1 = .num q1 ∧ s2 = .num q2 ∧ u1 = some v1 ∧ u2 = some v2 ∧
        lowerString v1 = lowerString v2 ∧ max q1 q2 = 0)) :
    size_similarity_and_effect s1 u1 s2 u2 = (50, 0) := by
  rcases h with rfl | rfl | rfl | rfl | ⟨t, rfl⟩ | ⟨t, rfl⟩ |
    ⟨q1, q2, v1, v2, rfl, rfl, rfl, rfl, heq, hmax⟩
  · cases s2 <;> cases u1 <;> cases u2 <;> rfl
  · cases s1 <;> cases u1 <;> cases u2 <;> rfl
  · cases s1 <;> cases s2 <;> cases u2 <;> rfl
  · cases s1 <;> cases s2 <;> cases u1 <;> rfl
  · cases s2 <;> cases u1 <;> cases u2 <;> rfl
  · cases s1 <;> cases u1 <;> cases u2 <;> rfl
  · simp only [size_similarity_and_effect]
    rw [if_neg (by simp [heq])]
    simp [hmax]

/-- C10 witness: the neutral result at a concrete missing size value. -/
theorem C10_size_guards_neutral_witness :
    size_similarity_and_effect .missing Option.none (.num 3) (some "g") = (50, 0) :=
  C10_size_guards_neutral _ _ _ _ (Or.inl rfl)

/-- C10 counterexample: both sizes parse to `0` but the units differ
(`g` vs `ml`), so the function returns the unit-mismatch penalty
`(0, -10)` rather than the neutral `(50, 0)` the claim asserts for
every zero-maximum input. -/
theorem C10_zero_size_different_units_counterexample :
    size_similarity_and_effect (.num 0) (some "g") (.num 0) (some "ml") = (0, -10) ∧
      ((0 : ℚ), (-10 : ℚ)) ≠ ((50 : ℚ), (0 : ℚ)) :=
  ⟨by with_unfolding_all decide, by with_unfolding_all decide⟩

end AuePricing
